import Mathlib

/-!
Verification development for the fitness-tracker ingestion engine
(`src/ingestion.py`, class `FitbitLoader`).

Shallow embedding conventions:
* modification instants (`st_mtime`, zip-member dates, epoch seconds) are
  modelled as `Int`;
* JSON numeric payloads (bpm, confidence, step values, CSV cells) as `ℚ`;
* the datetime normalizer `_parse_datetime_series` / `pd.to_datetime`
  (section 4.3 of the design) is a separate component whose internals no
  claim here depends on; it is passed as an explicit argument
  `parseDT : String → Option Int` (instant on success, `none` for NaT,
  dropped by `dropna`);
* filesystem reads are modelled by `Option`-valued fields on a `Source`
  (`none` = the corresponding read raised);
* cache/ledger writes (`to_parquet`, `_save_processed_metadata`) are
  assumed to succeed: the CACHE_WRITE_FAILURE soft-failure mode is out of
  scope, so the persisted state returned by `process_all` is the merged
  in-memory result;
* a parser exception escaping past `json.loads` (reachable for the
  heart/steps/sleep parsers on the malformed valid-JSON shapes listed in
  `FileData`) is modelled by the raise predicates `heart_parse_raises`,
  `steps_parse_raises`, `sleep_parse_raises`: `run_members` and
  `step_source` route such content to the `zip_error` handler (line 559)
  or the per-source `error` handler (lines 594-595), both of which skip
  the ledger mark.
-/

/-- Python `a or b` on two optional strings (`None` and `""` are falsy). -/
def pyOrStr : Option String → Option String → Option String
  | some s, b => if s = "" then b else some s
  | none, b => b

/-- Python `a or b` on two optional numbers (`None` and `0` are falsy). -/
def pyOrNum : Option ℚ → Option ℚ → Option ℚ
  | some x, b => if x = 0 then b else some x
  | none, b => b

/-- A JSON payload value as it occurs under an entry's `value` key:
either a plain number or a nested object (e.g. `{'bpm': .., 'confidence': ..}`). -/
inductive JVal where
  | num (q : ℚ)
  | obj (fields : List (String × ℚ))
  deriving DecidableEq

/-- Python dict truthiness for a `value` payload: `0` and `{}` are falsy. -/
def jvalTruthy : JVal → Bool
  | .num q => q ≠ 0
  | .obj fields => fields ≠ []

/-- Python `v.get('value') or v.get('steps')` (the `steps` field is numeric). -/
def pyOrVal (a : Option JVal) (b : Option ℚ) : Option JVal :=
  match a with
  | some j => if jvalTruthy j then some j else b.map JVal.num
  | none => b.map JVal.num

/-- Python `dict.get` on the fields of a nested `value` object. -/
def getField : List (String × ℚ) → String → Option ℚ
  | [], _ => none
  | (k, v) :: rest, key => if k = key then some v else getField rest key

/-- ASCII lowering of one character, modelling Python `str.lower`. -/
def lowerChar (c : Char) : Char :=
  if 65 ≤ c.toNat ∧ c.toNat ≤ 90 then Char.ofNat (c.toNat + 32) else c

/-- Lowering of a character list. -/
def lowerList (l : List Char) : List Char := l.map lowerChar

/-- Python `sub in s` on character lists (Python substring containment). -/
def hasSub : List Char → List Char → Bool
  | _, [] => true
  | [], _ :: _ => false
  | c :: rest, p => (List.isPrefixOf p (c :: rest)) || hasSub rest p

/-- Python `Path(s).name`: the part of the path after the last `/`. -/
def basenameChars (l : List Char) : List Char :=
  ((l.reverse.takeWhile (fun c => c ≠ '/')).reverse)

/-- Python `Path(s).name` on strings. -/
def path_name (s : String) : String := String.mk (basenameChars s.data)

/-- Python `fnmatch` against a pattern of the shape `stem*suffix`
(e.g. `heart_rate-*.json`). -/
def matches_stem_suffix (stem suffix name : String) : Bool :=
  List.isPrefixOf stem.data name.data && List.isSuffixOf suffix.data name.data
    && decide (stem.length + suffix.length ≤ name.length)

/-- Python `fnmatch` against a pattern of the shape `*mid*suffix`
(e.g. `*daily*.csv`). -/
def matches_mid_suffix (mid suffix name : String) : Bool :=
  List.isSuffixOf suffix.data name.data
    && hasSub (name.data.take (name.data.length - suffix.data.length)) mid.data

/-- The CSV dispatch condition of `process_all` (lines 552 and 582):
`name.lower().endswith('.csv') and ('daily' in name.lower() or 'sleep' in name.lower())`. -/
def csv_daily_match (name : String) : Bool :=
  let low := lowerList name.data
  List.isSuffixOf ".csv".data low
    && (hasSub low "daily".data || hasSub low "sleep".data)

/-- Python `str(src).lower().endswith('.zip')`. -/
def is_zip_path (path : String) : Bool :=
  List.isSuffixOf ".zip".data (lowerList path.data)

/-- One character is an ASCII digit. -/
def isDigitCh (c : Char) : Bool := decide ('0' ≤ c) && decide (c ≤ '9')

/-- Does the regex `20\d{2}-\d{2}-\d{2}` match at the head of the list?
Returns the matched ten characters. -/
def matchDateAt : List Char → Option (List Char)
  | '2' :: '0' :: a :: b :: '-' :: c :: d :: '-' :: e :: f :: _ =>
      if isDigitCh a && isDigitCh b && isDigitCh c && isDigitCh d
          && isDigitCh e && isDigitCh f then
        some ['2', '0', a, b, '-', c, d, '-', e, f]
      else none
  | _ => none

/-- Python `re.search`: the leftmost match of `20\d{2}-\d{2}-\d{2}`. -/
def findDate : List Char → Option (List Char)
  | [] => none
  | c :: rest =>
      match matchDateAt (c :: rest) with
      | some m => some m
      | none => findDate rest

/-- Model of `_extract_date_from_filename` (line 170): leftmost `20\d{2}-\d{2}-\d{2}`
match in `Path(label).name`. -/
def extract_date_from_filename (label : String) : Option String :=
  (findDate (basenameChars label.data)).map String.mk

/-- One JSON entry of a heart-rate or step-count file, with the fields the
parsers probe (`dateTime`, `time`, `value`, `bpm`, `confidence`, `steps`).
Numeric JSON fields are modelled as `ℚ`-or-absent. -/
structure Entry where
  dateTime : Option String
  time : Option String
  value : Option JVal
  bpm : Option ℚ
  confidence : Option ℚ
  steps : Option ℚ
  deriving DecidableEq

/-- A raw heart-rate row as appended by `_parse_heart_from_bytes`. -/
structure HRRow where
  dateTime : Option String
  bpm : Option ℚ
  confidence : Option ℚ
  deriving DecidableEq

/-- A raw step-count row as appended by `_parse_steps_from_bytes`
(`val` is the untouched `value or steps` payload, coerced only at merge). -/
structure StepsRow where
  dateTime : Option String
  val : Option JVal
  deriving DecidableEq

/-- A raw sleep session as appended by `_parse_sleep_from_bytes`. -/
structure SleepRow where
  start : Option String
  duration_s : Option ℚ
  level : Option String
  deriving DecidableEq

/-- One record of a `levels.data` array in a sleep JSON file. -/
structure LevelsRec where
  dateTime : Option String
  start : Option String
  seconds : Option ℚ
  duration : Option ℚ
  level : Option String
  stage : Option String
  deriving DecidableEq

/-- One record of a `sleep` array in a sleep JSON file. -/
structure SessRec where
  startTime : Option String
  durationMillis : Option ℚ
  deriving DecidableEq

/-- One CSV row: named numeric cells. -/
abbrev DailyRow := List (String × ℚ)

/-- The decoded content of one source file, at the granularity the parsers
distinguish: a JSON array of entry objects, an object with a `value` array,
an object with `levels.data`, an object with a `sleep` array, CSV bytes
(`none` rows = `pd.read_csv` raises), bytes `json.loads` rejects, and the
reachable valid-JSON shapes outside these on which a parser raises past
its `json.loads` guard: a truthy scalar document (e.g. `5`), a list (or
`value` array) whose elements are not objects, and an object whose
`levels`/`sleep` member has the wrong type. -/
inductive FileData where
  | entryList (entries : List Entry)
  | valueObj (entries : List Entry)
  | levelsObj (recs : List LevelsRec)
  | sleepObj (recs : List SessRec)
  | csvDoc (rows : Option (List DailyRow))
  | badDoc
  | scalarDoc
  | badEntries
  | badLevels
  deriving DecidableEq

/-- The timestamp fix-up of the heart/steps parsers (lines 474-475):
`if dt and len(str(dt)) <= 8 and base_date: dt = f"{base_date}T{dt}"`. -/
def recover_timestamp (base : Option String) (dt : Option String) : Option String :=
  match dt, base with
  | some s, some b =>
      if s ≠ "" ∧ s.length ≤ 8 ∧ b ≠ "" then some (b ++ "T" ++ s) else some s
  | x, _ => x

/-- Body of the entry loop of `_parse_heart_from_bytes` (lines 464-476):
`dt = v.get('dateTime') or v.get('time')`; bpm/confidence from the nested
`value` object when it is a dict, else
`bpm = v.get('bpm') or (v.get('value') if isinstance(v.get('value'), (int, float)) else None)`. -/
def parse_heart_entry (base : Option String) (v : Entry) : HRRow :=
  let dt := recover_timestamp base (pyOrStr v.dateTime v.time)
  match v.value with
  | some (.obj fields) => ⟨dt, getField fields "bpm", getField fields "confidence"⟩
  | some (.num q) => ⟨dt, pyOrNum v.bpm (some q), v.confidence⟩
  | none => ⟨dt, pyOrNum v.bpm none, v.confidence⟩

/-- Model of `_parse_heart_from_bytes` (lines 448-477): entries come from a JSON list
or an object's `value` array; any other recognized document yields no rows.
On content where the Python parser raises (see `heart_parse_raises`) this
function is never consulted: the drivers branch to the exception handlers
first. -/
def parse_heart_from_bytes (label : String) (d : FileData) : List HRRow :=
  match d with
  | .entryList es => es.map (parse_heart_entry (extract_date_from_filename label))
  | .valueObj es => es.map (parse_heart_entry (extract_date_from_filename label))
  | _ => []

/-- Body of the entry loop of `_parse_steps_from_bytes` (lines 491-496). -/
def parse_steps_entry (base : Option String) (v : Entry) : StepsRow :=
  ⟨recover_timestamp base (pyOrStr v.dateTime v.time), pyOrVal v.value v.steps⟩

/-- Model of `_parse_steps_from_bytes` (lines 479-497). On content where the
Python parser raises (see `steps_parse_raises`) this function is never
consulted. -/
def parse_steps_from_bytes (label : String) (d : FileData) : List StepsRow :=
  match d with
  | .entryList es => es.map (parse_steps_entry (extract_date_from_filename label))
  | .valueObj es => es.map (parse_steps_entry (extract_date_from_filename label))
  | _ => []

/-- Model of `_parse_sleep_from_bytes` (lines 499-515): two supported dict shapes,
any other recognized document yields no sessions. On content where the
Python parser raises (see `sleep_parse_raises`) this function is never
consulted. -/
def parse_sleep_from_bytes (d : FileData) : List SleepRow :=
  match d with
  | .levelsObj recs =>
      recs.map (fun r =>
        ⟨pyOrStr r.dateTime r.start, pyOrNum r.seconds r.duration,
         pyOrStr r.level r.stage⟩)
  | .sleepObj ss =>
      ss.map (fun s => ⟨s.startTime, some ((s.durationMillis.getD 0) / 1000), none⟩)
  | _ => []

/-- Reachable JSON contents on which `_parse_heart_from_bytes` raises past
its `json.loads` guard: non-object entries (`v.get` on a non-dict,
line 465). A scalar document does not raise it (entries stays None). -/
def heart_parse_raises : FileData → Bool
  | .badEntries => true
  | _ => false

/-- Reachable JSON contents on which `_parse_steps_from_bytes` raises past
its `json.loads` guard: a truthy scalar document (`for v in 5`, line 491)
or non-object entries (`v.get` on a non-dict, line 492). -/
def steps_parse_raises : FileData → Bool
  | .scalarDoc => true
  | .badEntries => true
  | _ => false

/-- Reachable JSON contents on which `_parse_sleep_from_bytes` raises past
its `json.loads` guard: a `levels` or `sleep` member of the wrong type
(lines 507-513). -/
def sleep_parse_raises : FileData → Bool
  | .badLevels => true
  | _ => false

/-- Does the parser selected by the dispatch if/elif chain raise on this
content? The CSV branch wraps `pd.read_csv` in a local try of its own
(lines 553-558 and 583-588), so it never propagates an exception, and a
name matching no pattern dispatches nothing. -/
def dispatch_raises (name : String) (content : FileData) : Bool :=
  if matches_stem_suffix "heart_rate-" ".json" name then heart_parse_raises content
  else if matches_stem_suffix "steps-" ".json" name then steps_parse_raises content
  else if matches_stem_suffix "sleep-" ".json" name then sleep_parse_raises content
  else false

/-- A member of a zip archive: its in-archive path and its decoded content
(`none` = `zf.read(member)` raises, silently skipped). -/
structure ZipMember where
  name : String
  read : Option FileData
  deriving DecidableEq

/-- Does some readable member of the archive make its selected parser
raise? Such a member aborts the member loop into the zip_error handler
(line 559). -/
def members_raise : List ZipMember → Bool
  | [] => false
  | m :: rest =>
      match m.read with
      | none => members_raise rest
      | some content =>
          dispatch_raises (path_name m.name) content || members_raise rest

/-- One candidate source collected by `process_all` (lines 433-445): its
path string, its `st_mtime`, the result of `Path(src).read_bytes()` and the
result of `zipfile.ZipFile(src)` (each `none` when the call raises; only
the one selected by the `.zip` name test is ever consulted). -/
structure Source where
  path : String
  mtime : Int
  read : Option FileData
  members : Option (List ZipMember)
  deriving DecidableEq

/-- A persisted (instant-indexed) heart-rate record: instant, bpm, confidence. -/
abbrev HRK := Int × Option ℚ × Option ℚ

/-- A persisted step-count record: instant, integer step count. -/
abbrev StepsK := Int × Int

/-- A persisted sleep record: start instant, duration, stage label. -/
abbrev SleepK := Int × Option ℚ × Option String

/-- The durable state owned by the cache manager: the processed-source
ledger plus the four per-category cache artifacts. -/
structure CacheState where
  ledger : List (String × Int)
  heart_cache : List HRK
  steps_cache : List StepsK
  sleep_cache : List SleepK
  daily_cache : List DailyRow
  deriving DecidableEq

/-- Python `processed.get(key)` on the ledger dict. -/
def ledger_get : List (String × Int) → String → Option Int
  | [], _ => none
  | (k, v) :: rest, key => if k = key then some v else ledger_get rest key

/-- Python `processed[key] = value` on the ledger dict (update in place, else append). -/
def ledger_set (L : List (String × Int)) (key : String) (v : Int) :
    List (String × Int) :=
  if (ledger_get L key).isSome then
    L.map (fun p => if p.1 = key then (key, v) else p)
  else L ++ [(key, v)]

/-- One progress message, mirroring the `_report` strings of `process_all`. -/
inductive Msg where
  | root_missing
  | skipped
  | processed
  | zip_error
  | read_error
  | error
  | parsed (n : ℕ)
  | parsed_sleep (n : ℕ)
  | parsed_daily (n : ℕ)
  deriving DecidableEq

/-- The in-flight state of one pass: the (mutated) ledger, the four
pending-new buffers and the progress trace. -/
structure PassAcc where
  ledger : List (String × Int)
  new_hr_rows : List HRRow
  new_steps_rows : List StepsRow
  new_sleep_sessions : List SleepRow
  new_daily_dfs : List (List DailyRow)
  trace : List (String × Msg)
  deriving DecidableEq

/-- The dispatch if/elif chain shared by the zip-member branch
(lines 540-558) and the plain-file branch (lines 570-588): match the
basename against each category's pattern, parse, extend that category's
buffer and report; a name matching nothing falls through silently. This
models the chain's non-raising execution: content on which the selected
parser raises (see `dispatch_raises`) never reaches this function — the
drivers branch to the exception handlers first. -/
def dispatch_content (label name : String) (content : FileData) (acc : PassAcc) :
    PassAcc :=
  if matches_stem_suffix "heart_rate-" ".json" name then
    let rows := parse_heart_from_bytes label content
    { acc with new_hr_rows := acc.new_hr_rows ++ rows,
               trace := acc.trace ++ [(label, Msg.parsed rows.length)] }
  else if matches_stem_suffix "steps-" ".json" name then
    let rows := parse_steps_from_bytes label content
    { acc with new_steps_rows := acc.new_steps_rows ++ rows,
               trace := acc.trace ++ [(label, Msg.parsed rows.length)] }
  else if matches_stem_suffix "sleep-" ".json" name then
    let rows := parse_sleep_from_bytes content
    { acc with new_sleep_sessions := acc.new_sleep_sessions ++ rows,
               trace := acc.trace ++ [(label, Msg.parsed_sleep rows.length)] }
  else if csv_daily_match name then
    match content with
    | .csvDoc (some rows) =>
        { acc with new_daily_dfs := acc.new_daily_dfs ++ [rows],
                   trace := acc.trace ++ [(label, Msg.parsed_daily rows.length)] }
    | _ => { acc with trace := acc.trace ++ [(label, Msg.parsed_daily 0)] }
  else acc

/-- The zip member loop (lines 534-558): an unreadable member is skipped
silently (lines 536-539); a member whose selected parser raises aborts the
loop — the exception is caught at line 559 — and the partial accumulator
(the buffer extensions and events of the members already visited are kept)
is returned with the raised flag set; otherwise the member's content is
dispatched under the label `{src}!{member}`. -/
def run_members (zpath : String) (acc : PassAcc) :
    List ZipMember → PassAcc × Bool
  | [] => (acc, false)
  | m :: rest =>
      match m.read with
      | none => run_members zpath acc rest
      | some content =>
          if dispatch_raises (path_name m.name) content then (acc, true)
          else
            run_members zpath
              (dispatch_content (zpath ++ "!" ++ m.name) (path_name m.name)
                content acc) rest

/-- Processing of one source (lines 518-595): the ledger skip check, then
either the zip-member loop or the plain-file dispatch, then
`processed[src_key] = src_mtime` plus immediate persistence and a
'processed' event. `zip_error` (line 560, also reached by a member's
parser exception) and `read_error` (line 568) `continue` before the source
is marked, and a parser exception escaping a plain-file dispatch is caught
by the outer per-source handler and reported as 'error' (lines 594-595) —
again before the mark. -/
def step_source (acc : PassAcc) (src : Source) : PassAcc :=
  if src.mtime ≤ (ledger_get acc.ledger src.path).getD 0 then
    { acc with trace := acc.trace ++ [(src.path, Msg.skipped)] }
  else if is_zip_path src.path then
    match src.members with
    | none => { acc with trace := acc.trace ++ [(src.path, Msg.zip_error)] }
    | some ms =>
        if (run_members src.path acc ms).2 then
          { (run_members src.path acc ms).1 with
              trace := (run_members src.path acc ms).1.trace
                ++ [(src.path, Msg.zip_error)] }
        else
          { (run_members src.path acc ms).1 with
              ledger := ledger_set (run_members src.path acc ms).1.ledger
                src.path src.mtime,
              trace := (run_members src.path acc ms).1.trace
                ++ [(src.path, Msg.processed)] }
  else
    match src.read with
    | none => { acc with trace := acc.trace ++ [(src.path, Msg.read_error)] }
    | some content =>
        if dispatch_raises (path_name src.path) content then
          { acc with trace := acc.trace ++ [(src.path, Msg.error)] }
        else
          { (dispatch_content src.path (path_name src.path) content acc) with
              ledger := ledger_set
                (dispatch_content src.path (path_name src.path) content acc).ledger
                src.path src.mtime,
              trace := (dispatch_content src.path (path_name src.path) content acc).trace
                ++ [(src.path, Msg.processed)] }

/-- Ascending order on instant-keyed records. -/
abbrev keyLe {β : Type} (a b : Int × β) : Prop := a.1 ≤ b.1

/-- Pandas `sort_index()` / `sort_values` on instant-keyed records. -/
def sort_by_key {β : Type} (l : List (Int × β)) : List (Int × β) :=
  List.insertionSort keyLe l

/-- Pandas `drop_duplicates()`: keep the first occurrence of each row. -/
def dedup_go {α : Type} [DecidableEq α] (seen : List α) : List α → List α
  | [] => []
  | a :: l => if a ∈ seen then dedup_go seen l else a :: dedup_go (a :: seen) l

/-- Pandas `drop_duplicates()` on a whole frame. -/
def dedup_keep_first {α : Type} [DecidableEq α] (l : List α) : List α :=
  dedup_go [] l

/-- Heart-rate merge (lines 598-618): if there are no new raw rows the
existing cache is returned unchanged; otherwise new rows are
datetime-parsed, NaT-dropped, keyed by instant, concatenated with the
existing cache and sorted (no deduplication). -/
def merge_heart (parseDT : String → Option Int) (existing : List HRK)
    (newRows : List HRRow) : List HRK :=
  if newRows.isEmpty then existing
  else
    let newParsed := newRows.filterMap (fun r =>
      match r.dateTime.bind parseDT with
      | none => none
      | some t => some ((t, r.bpm, r.confidence) : HRK))
    sort_by_key (existing ++ newParsed)

/-- Pandas `pd.to_numeric(..).fillna(0).astype(int)` on one raw step payload:
a number truncates toward zero, anything else becomes 0. -/
def coerce_steps (v : Option JVal) : Int :=
  match v with
  | some (.num q) => if 0 ≤ q then q.floor else q.ceil
  | _ => 0

/-- Step-count merge (lines 620-640): like heart-rate, plus the
numeric/zero coercion of the steps column; no deduplication. -/
def merge_steps (parseDT : String → Option Int) (existing : List StepsK)
    (newRows : List StepsRow) : List StepsK :=
  if newRows.isEmpty then existing
  else
    let newParsed := newRows.filterMap (fun r =>
      match r.dateTime.bind parseDT with
      | none => none
      | some t => some ((t, coerce_steps r.val) : StepsK))
    sort_by_key (existing ++ newParsed)

/-- Sleep merge (lines 642-662): new sessions are parsed, dropped on NaT
and sorted by start; only when the existing cache is non-empty is the
concatenation deduplicated as whole tuples and re-sorted. -/
def merge_sleep (parseDT : String → Option Int) (existing : List SleepK)
    (newRows : List SleepRow) : List SleepK :=
  if newRows.isEmpty then existing
  else
    let newParsed := sort_by_key (newRows.filterMap (fun r =>
      match r.start.bind parseDT with
      | none => none
      | some t => some ((t, r.duration_s, r.level) : SleepK)))
    if existing.isEmpty then newParsed
    else sort_by_key (dedup_keep_first (existing ++ newParsed))

/-- Daily merge (lines 664-687): concatenate the new frames; only when the
existing cache is non-empty is the result deduplicated as whole rows. -/
def merge_daily (existing : List DailyRow) (newDfs : List (List DailyRow)) :
    List DailyRow :=
  if newDfs.isEmpty then existing
  else
    let concat_daily := newDfs.flatten
    if concat_daily.isEmpty then existing
    else if existing.isEmpty then concat_daily
    else dedup_keep_first (existing ++ concat_daily)

/-- IBI derivation (lines 689-698):
`60000.0 / merged['bpm'].replace({0: None})` then `dropna`: a missing or
zero bpm is dropped, any other bpm q yields 60000 / q. -/
def derive_ibi (hr : List HRK) : List (Int × ℚ) :=
  hr.filterMap (fun r =>
    match r.2.1 with
    | none => none
    | some q => if q = 0 then none else some (r.1, 60000 / q))

/-- The result of one full pass: the five returned frames, the persisted
state, and the pass's progress trace. -/
structure PassResult where
  heart_rate : List HRK
  ibi : List (Int × ℚ)
  steps : List StepsK
  sleep : List SleepK
  daily : List DailyRow
  state : CacheState
  trace : List (String × Msg)
  deriving DecidableEq

/-- Model of `process_all` (lines 401-706): the ROOT_MISSING short-circuit, the
per-source incremental loop, the four category merges and the IBI
derivation. `sources` is the candidate list the directory walk produced;
`root_exists` is `self._exists`. -/
def process_all (parseDT : String → Option Int) (st : CacheState)
    (root_exists : Bool) (root_path : String) (sources : List Source) :
    PassResult :=
  match root_exists with
  | false => ⟨[], [], [], [], [], st, [(root_path, Msg.root_missing)]⟩
  | true =>
    let acc := sources.foldl step_source ⟨st.ledger, [], [], [], [], []⟩
    let merged := merge_heart parseDT st.heart_cache acc.new_hr_rows
    let merged_steps := merge_steps parseDT st.steps_cache acc.new_steps_rows
    let merged_sleep := merge_sleep parseDT st.sleep_cache acc.new_sleep_sessions
    let merged_daily := merge_daily st.daily_cache acc.new_daily_dfs
    ⟨merged, derive_ibi merged, merged_steps, merged_sleep, merged_daily,
     ⟨acc.ledger, merged, merged_steps, merged_sleep, merged_daily⟩, acc.trace⟩

/-- The state of one cache artifact on disk, as `get_cache_status` probes
it: existence, byte size, and modified instant (meaningful when present). -/
structure CacheArtifact where
  present : Bool
  size : ℕ
  mtime : Int
  deriving DecidableEq

/-- Model of `_latest_source_mtime` (lines 97-139): fold `max` over the modified
instants of the walked files (loose files and zip members alike, given
here as name/mtime pairs) whose name matches the category's patterns,
starting from 0. -/
def latest_source_mtime (pat : String → Bool) (files : List (String × Int)) :
    Int :=
  files.foldl (fun acc f => if pat f.1 then max acc f.2 else acc) 0

/-- The freshness boolean of `get_cache_status` (line 159):
`fresh = exists and (mtime is not None and mtime >= src_mtime)`. -/
def get_cache_status_fresh (c : CacheArtifact) (pat : String → Bool)
    (files : List (String × Int)) : Bool :=
  c.present && decide (latest_source_mtime pat files ≤ c.mtime)

/-- The freshness predicate in the spec's words (for comparison with the
code's `get_cache_status_fresh`): the cache artifact exists, is non-empty,
and its modified instant is ≥ the latest matching-source instant. -/
def fresh_spec (c : CacheArtifact) (pat : String → Bool)
    (files : List (String × Int)) : Bool :=
  c.present && decide (0 < c.size) && decide (latest_source_mtime pat files ≤ c.mtime)

/-- The source's selected read succeeds and its dispatch completes without
an exception: a plain file whose bytes read and whose selected parser does
not raise, or an archive that opens none of whose readable members' parsers
raise. Sources violating this hit the `read_error`, `zip_error` or
per-source `error` handler and are never recorded in the ledger. -/
def source_clean (s : Source) : Bool :=
  if is_zip_path s.path then
    match s.members with
    | none => false
    | some ms => !(members_raise ms)
  else
    match s.read with
    | none => false
    | some d => !(dispatch_raises (path_name s.path) d)

/-- Cleanliness of a source, as a proposition. -/
def good_source (s : Source) : Prop := source_clean s = true

instance (s : Source) : Decidable (good_source s) := by
  unfold good_source; infer_instance

/-- A ten-character string of the exact shape the date regex
`20\d{2}-\d{2}-\d{2}` accepts. -/
def date_shape (s : String) : Bool := decide (matchDateAt s.data = some s.data)

/-- A finite-table datetime normalizer, used to instantiate `parseDT`
on concrete inputs. -/
def parse_table (tbl : List (String × Int)) : String → Option Int :=
  fun s => ledger_get tbl s

/-- The state of a cache directory with no artifacts and an empty ledger. -/
def empty_state : CacheState := ⟨[], [], [], [], []⟩

/-- The pass accumulator at the start of a pass over `empty_state`. -/
def empty_acc : PassAcc := ⟨[], [], [], [], [], []⟩

/-- A heart-rate JSON entry carrying only a timestamp and a bpm. -/
def e_hr (dts : String) (b : ℚ) : Entry := ⟨some dts, none, none, some b, none, none⟩

/-- A loose JSON source file whose content is a list of entries. -/
def src_json (p : String) (m : Int) (es : List Entry) : Source :=
  ⟨p, m, some (.entryList es), none⟩

instance {β : Type} : IsTotal (Int × β) keyLe := ⟨fun a b => le_total a.1 b.1⟩

instance {β : Type} : IsTrans (Int × β) keyLe := ⟨fun _ _ _ h1 h2 => le_trans h1 h2⟩

/-- A heart-rate source with two entries sharing one instant (duplicate-key
fixture). -/
def c1_src : Source :=
  src_json "heart_rate-2023-01-01.json" 1
    [e_hr "2023-01-01T00:00:00" 60, e_hr "2023-01-01T00:00:00" 61]

/-- A normalizer resolving the fixture timestamp to instant 100. -/
def c1_parse : String → Option Int := parse_table [("2023-01-01T00:00:00", 100)]

/-- An accumulator whose ledger already records source "x" at instant 5. -/
def c2_acc : PassAcc := ⟨[("x", 5)], [], [], [], [], []⟩

/-- The ledger-recorded source "x" seen again at an older instant. -/
def c2_src : Source := ⟨"x", 3, none, none⟩

/-- A source absent from every ledger whose modified instant is 0. -/
def c2_zero_src : Source := src_json "heart_rate-a.json" 0 []

/-- A well-formed single-record heart-rate source (idempotence fixture). -/
def c3_src : Source := src_json "heart_rate-2023-01-02.json" 2 [e_hr "2023-01-02T00:00:00" 72]

/-- A normalizer resolving the idempotence fixture timestamp to instant 200. -/
def c3_parse : String → Option Int := parse_table [("2023-01-02T00:00:00", 200)]

/-- A plain-file source whose byte read raises. -/
def c4_bad_src : Source := ⟨"heart_rate-b.json", 5, none, none⟩

/-- A readable plain-file heart-rate source at instant 7. -/
def c4_good_src : Source := src_json "heart_rate-c.json" 7 []

/-- A readable steps-named file whose content is a truthy valid-JSON
scalar (e.g. the document `5`): the steps parser raises on it past
`json.loads`, so the per-source error handler fires. -/
def c4_scalar_src : Source := ⟨"steps-2023-01-03.json", 4, some .scalarDoc, none⟩

/-- A heart-rate entry carrying only a time-of-day timestamp. -/
def c7_entry : Entry := ⟨none, some "14:03:00", none, none, none, none⟩

/-- A CSV source whose name contains "sleep" but not "daily". -/
def c9_src : Source := ⟨"sleep_score.csv", 1, some (.csvDoc (some [[("score", 80)]])), none⟩

/-- One CSV frame used to exercise the daily dispatch. -/
def c9_rows : List DailyRow := [[("steps", 100)]]

/-- A flat heart-rate entry with an explicit bpm of 0 and a numeric value. -/
def c10_entry : Entry := ⟨some "2023-01-01T00:00:00", none, some (.num 70), some 0, none, none⟩

theorem sorted_sort_by_key {β : Type} (l : List (Int × β)) :
    (sort_by_key l).Sorted keyLe :=
  List.sorted_insertionSort keyLe l

theorem sort_by_key_perm {β : Type} (l : List (Int × β)) :
    (sort_by_key l).Perm l :=
  List.perm_insertionSort keyLe l

theorem mem_dedup_go {α : Type} [DecidableEq α] (l : List α) :
    ∀ (seen : List α) (a : α), a ∈ dedup_go seen l → a ∈ l ∧ a ∉ seen := by
  induction l with
  | nil => intro seen a h; simp [dedup_go] at h
  | cons x xs ih =>
      intro seen a h
      unfold dedup_go at h
      by_cases hx : x ∈ seen
      · rw [if_pos hx] at h
        rcases ih seen a h with ⟨h1, h2⟩
        exact ⟨List.mem_cons_of_mem _ h1, h2⟩
      · rw [if_neg hx] at h
        rcases List.mem_cons.mp h with rfl | h'
        · exact ⟨List.mem_cons_self _ _, hx⟩
        · rcases ih (x :: seen) a h' with ⟨h1, h2⟩
          refine ⟨List.mem_cons_of_mem _ h1, fun hc => h2 (List.mem_cons_of_mem _ hc)⟩

theorem nodup_dedup_go {α : Type} [DecidableEq α] (l : List α) :
    ∀ seen : List α, (dedup_go seen l).Nodup := by
  induction l with
  | nil => intro seen; simp [dedup_go]
  | cons x xs ih =>
      intro seen
      unfold dedup_go
      by_cases hx : x ∈ seen
      · rw [if_pos hx]; exact ih seen
      · rw [if_neg hx]
        refine List.nodup_cons.mpr ⟨fun hc => ?_, ih (x :: seen)⟩
        exact (mem_dedup_go xs (x :: seen) x hc).2 (List.mem_cons_self _ _)

theorem nodup_dedup_keep_first {α : Type} [DecidableEq α] (l : List α) :
    (dedup_keep_first l).Nodup :=
  nodup_dedup_go l []

theorem ledger_get_append_last (L : List (String × Int)) (key : String) (v : Int)
    (h : ledger_get L key = none) :
    ledger_get (L ++ [(key, v)]) key = some v := by
  induction L with
  | nil => simp [ledger_get]
  | cons p rest ih =>
      rw [List.cons_append]
      unfold ledger_get at h ⊢
      by_cases hk : p.1 = key
      · rw [if_pos hk] at h; exact absurd h (by simp)
      · rw [if_neg hk] at h ⊢
        exact ih h

theorem ledger_get_map_update (L : List (String × Int)) (key : String) (v : Int) :
    ledger_get (L.map (fun p => if p.1 = key then (key, v) else p)) key =
      if (ledger_get L key).isSome then some v else none := by
  induction L with
  | nil => simp [ledger_get]
  | cons p rest ih =>
      by_cases hk : p.1 = key
      · simp only [List.map_cons, if_pos hk]
        unfold ledger_get
        rw [if_pos rfl, if_pos hk]
        simp
      · simp only [List.map_cons, if_neg hk]
        unfold ledger_get
        rw [if_neg hk, if_neg hk]
        exact ih

theorem ledger_get_set_self (L : List (String × Int)) (key : String) (v : Int) :
    ledger_get (ledger_set L key v) key = some v := by
  unfold ledger_set
  by_cases h : (ledger_get L key).isSome = true
  · rw [if_pos h, ledger_get_map_update, if_pos h]
  · rw [if_neg h]
    refine ledger_get_append_last L key v ?_
    cases hv : ledger_get L key with
    | none => rfl
    | some w => rw [hv] at h; simp at h

theorem ledger_get_append_other (L : List (String × Int)) (key k : String) (v : Int)
    (hne : k ≠ key) :
    ledger_get (L ++ [(key, v)]) k = ledger_get L k := by
  induction L with
  | nil =>
      simp only [List.nil_append, ledger_get]
      rw [if_neg (fun h => hne h.symm)]
  | cons p rest ih =>
      rw [List.cons_append]
      unfold ledger_get
      by_cases hk : p.1 = k
      · rw [if_pos hk, if_pos hk]
      · rw [if_neg hk, if_neg hk]; exact ih

theorem ledger_get_map_update_other (L : List (String × Int)) (key k : String)
    (v : Int) (hne : k ≠ key) :
    ledger_get (L.map (fun p => if p.1 = key then (key, v) else p)) k =
      ledger_get L k := by
  induction L with
  | nil => rfl
  | cons p rest ih =>
      by_cases hk : p.1 = key
      · simp only [List.map_cons, if_pos hk]
        unfold ledger_get
        rw [if_neg (fun h => hne h.symm)]
        rw [if_neg (show ¬ p.1 = k from fun h => hne (hk ▸ h).symm)]
        exact ih
      · simp only [List.map_cons, if_neg hk]
        unfold ledger_get
        by_cases hpk : p.1 = k
        · rw [if_pos hpk, if_pos hpk]
        · rw [if_neg hpk, if_neg hpk]; exact ih

theorem ledger_get_set_other (L : List (String × Int)) (key k : String) (v : Int)
    (hne : k ≠ key) :
    ledger_get (ledger_set L key v) k = ledger_get L k := by
  unfold ledger_set
  by_cases h : (ledger_get L key).isSome = true
  · rw [if_pos h]; exact ledger_get_map_update_other L key k v hne
  · rw [if_neg h]; exact ledger_get_append_other L key k v hne

theorem last_of_append_single {α : Type} (l : List α) (a : α) :
    (l ++ [a]).getLast? = some a := by
  induction l with
  | nil => rfl
  | cons x xs ih => rw [List.cons_append, List.getLast?_cons, ih]; rfl

theorem dispatch_content_ledger (label name : String) (content : FileData)
    (acc : PassAcc) :
    (dispatch_content label name content acc).ledger = acc.ledger := by
  unfold dispatch_content
  split_ifs
  · rfl
  · rfl
  · rfl
  · cases content <;> try rfl
    rename_i o
    cases o <;> rfl
  · rfl

theorem run_members_fst_ledger (zpath : String) (ms : List ZipMember) :
    ∀ acc : PassAcc, ((run_members zpath acc ms).1).ledger = acc.ledger := by
  induction ms with
  | nil => intro acc; rfl
  | cons m rest ih =>
      intro acc
      obtain ⟨n, rd⟩ := m
      cases rd with
      | none => exact ih acc
      | some content =>
          show ((if dispatch_raises (path_name n) content then
              ((acc, true) : PassAcc × Bool)
            else run_members zpath
              (dispatch_content (zpath ++ "!" ++ n) (path_name n) content acc)
              rest).1).ledger = acc.ledger
          by_cases hr : dispatch_raises (path_name n) content = true
          · rw [if_pos hr]
          · rw [if_neg hr, ih _, dispatch_content_ledger]

theorem run_members_snd (zpath : String) (ms : List ZipMember) :
    ∀ acc : PassAcc, (run_members zpath acc ms).2 = members_raise ms := by
  induction ms with
  | nil => intro acc; rfl
  | cons m rest ih =>
      intro acc
      obtain ⟨n, rd⟩ := m
      cases rd with
      | none => exact ih acc
      | some content =>
          show ((if dispatch_raises (path_name n) content then
              ((acc, true) : PassAcc × Bool)
            else run_members zpath
              (dispatch_content (zpath ++ "!" ++ n) (path_name n) content acc)
              rest).2)
            = (dispatch_raises (path_name n) content || members_raise rest)
          by_cases hr : dispatch_raises (path_name n) content = true
          · rw [if_pos hr, hr]
            rfl
          · have hf : dispatch_raises (path_name n) content = false := by
              simpa using hr
            rw [if_neg hr, ih _, hf, Bool.false_or]

theorem step_source_skip_eq (acc : PassAcc) (src : Source)
    (h : src.mtime ≤ (ledger_get acc.ledger src.path).getD 0) :
    step_source acc src = { acc with trace := acc.trace ++ [(src.path, Msg.skipped)] } := by
  unfold step_source
  rw [if_pos h]

theorem step_source_ledger_other (acc : PassAcc) (src : Source) (k : String)
    (hk : k ≠ src.path) :
    ledger_get (step_source acc src).ledger k = ledger_get acc.ledger k := by
  obtain ⟨p, m, rd, mem⟩ := src
  unfold step_source
  split_ifs
  · rfl
  · cases mem with
    | none => rfl
    | some ms =>
        simp only
        split_ifs
        · simp only
          rw [run_members_fst_ledger]
        · simp only
          rw [ledger_get_set_other _ _ _ _ hk, run_members_fst_ledger]
  · cases rd with
    | none => rfl
    | some c =>
        simp only
        split_ifs
        · rfl
        · simp only
          rw [ledger_get_set_other _ _ _ _ hk, dispatch_content_ledger]

theorem step_source_mark (acc : PassAcc) (src : Source)
    (h : ¬ src.mtime ≤ (ledger_get acc.ledger src.path).getD 0)
    (hg : good_source src) :
    ledger_get (step_source acc src).ledger src.path = some src.mtime
      ∧ (step_source acc src).trace.getLast? = some (src.path, Msg.processed) := by
  obtain ⟨p, m, rd, mem⟩ := src
  unfold good_source source_clean at hg
  unfold step_source
  rw [if_neg h]
  by_cases hz : is_zip_path p = true
  · rw [if_pos hz] at hg ⊢
    cases mem with
    | none => simp at hg
    | some ms =>
        simp only at hg ⊢
        have hflag : (run_members p acc ms).2 = false := by
          rw [run_members_snd]
          simpa using hg
        rw [if_neg (by rw [hflag]; simp : ¬ (run_members p acc ms).2 = true)]
        constructor
        · rw [ledger_get_set_self]
        · exact last_of_append_single _ _
  · rw [if_neg hz] at hg ⊢
    cases rd with
    | none => simp at hg
    | some c =>
        simp only at hg ⊢
        have hraise : dispatch_raises (path_name p) c = false := by
          simpa using hg
        rw [if_neg (by rw [hraise]; simp : ¬ dispatch_raises (path_name p) c = true)]
        constructor
        · rw [ledger_get_set_self]
        · exact last_of_append_single _ _

theorem fold_sources_ledger_not_mem (srcs : List Source) :
    ∀ (acc : PassAcc) (k : String), k ∉ srcs.map Source.path →
      ledger_get ((srcs.foldl step_source acc).ledger) k = ledger_get acc.ledger k := by
  induction srcs with
  | nil => intro acc k _; rfl
  | cons s rest ih =>
      intro acc k hk
      rw [List.map_cons, List.mem_cons] at hk
      push_neg at hk
      rw [List.foldl_cons, ih _ k hk.2, step_source_ledger_other _ _ _ hk.1]

theorem pass_ledger_covers (srcs : List Source) :
    ∀ acc : PassAcc, (srcs.map Source.path).Nodup → (∀ s ∈ srcs, good_source s) →
      ∀ s ∈ srcs,
        s.mtime ≤ (ledger_get ((srcs.foldl step_source acc).ledger) s.path).getD 0 := by
  induction srcs with
  | nil => intro acc _ _ s hs; simp at hs
  | cons s rest ih =>
      intro acc hnd hg t ht
      rw [List.map_cons, List.nodup_cons] at hnd
      rw [List.foldl_cons]
      rcases List.mem_cons.mp ht with rfl | ht'
      · rw [fold_sources_ledger_not_mem rest _ t.path hnd.1]
        by_cases hskip : t.mtime ≤ (ledger_get acc.ledger t.path).getD 0
        · rw [step_source_skip_eq acc t hskip]
          exact hskip
        · have hm := (step_source_mark acc t hskip
            (hg t (List.mem_cons_self _ _))).1
          rw [hm]
          exact le_refl _
      · exact ih _ hnd.2 (fun u hu => hg u (List.mem_cons_of_mem _ hu)) t ht'

theorem all_skip_fold (srcs : List Source) :
    ∀ acc : PassAcc,
      (∀ s ∈ srcs, s.mtime ≤ (ledger_get acc.ledger s.path).getD 0) →
      srcs.foldl step_source acc =
        { acc with trace := acc.trace ++ srcs.map (fun s => (s.path, Msg.skipped)) } := by
  induction srcs with
  | nil =>
      intro acc _
      obtain ⟨L, a, b, c, d, tr⟩ := acc
      simp
  | cons s rest ih =>
      intro acc h
      have h1 := h s (List.mem_cons_self s rest)
      rw [List.foldl_cons, step_source_skip_eq acc s h1]
      have h2 : ∀ t ∈ rest, t.mtime ≤
          (ledger_get ({ acc with trace := acc.trace ++ [(s.path, Msg.skipped)] }
            : PassAcc).ledger t.path).getD 0 :=
        fun t ht => h t (List.mem_cons_of_mem _ ht)
      rw [ih _ h2]
      obtain ⟨L, a, b, c, d, tr⟩ := acc
      simp [List.append_assoc]

theorem merge_heart_nil (p : String → Option Int) (ex : List HRK) :
    merge_heart p ex [] = ex := rfl

theorem merge_steps_nil (p : String → Option Int) (ex : List StepsK) :
    merge_steps p ex [] = ex := rfl

theorem merge_sleep_nil (p : String → Option Int) (ex : List SleepK) :
    merge_sleep p ex [] = ex := rfl

theorem merge_daily_nil (ex : List DailyRow) :
    merge_daily ex [] = ex := rfl

theorem merge_heart_sorted (p : String → Option Int) (ex : List HRK)
    (rows : List HRRow) (hex : ex.Sorted keyLe) :
    (merge_heart p ex rows).Sorted keyLe := by
  unfold merge_heart
  split_ifs
  · exact hex
  · exact sorted_sort_by_key _

theorem merge_steps_sorted (p : String → Option Int) (ex : List StepsK)
    (rows : List StepsRow) (hex : ex.Sorted keyLe) :
    (merge_steps p ex rows).Sorted keyLe := by
  unfold merge_steps
  split_ifs
  · exact hex
  · exact sorted_sort_by_key _

theorem merge_sleep_sorted (p : String → Option Int) (ex : List SleepK)
    (rows : List SleepRow) (hex : ex.Sorted keyLe) :
    (merge_sleep p ex rows).Sorted keyLe := by
  unfold merge_sleep
  split_ifs
  · exact hex
  · exact sorted_sort_by_key _
  · exact sorted_sort_by_key _

theorem merge_sleep_nodup (p : String → Option Int) (ex : List SleepK)
    (rows : List SleepRow) (hrows : rows ≠ []) (hex : ex ≠ []) :
    (merge_sleep p ex rows).Nodup := by
  unfold merge_sleep
  rw [if_neg (by simpa [List.isEmpty_iff] using hrows)]
  rw [if_neg (by simpa [List.isEmpty_iff] using hex)]
  exact ((sort_by_key_perm _).nodup_iff).mpr (nodup_dedup_keep_first _)

theorem merge_daily_nodup (ex : List DailyRow) (newDfs : List (List DailyRow))
    (hflat : newDfs.flatten ≠ []) (hex : ex ≠ []) :
    (merge_daily ex newDfs).Nodup := by
  unfold merge_daily
  have hdfs : newDfs ≠ [] := by
    intro hc; exact hflat (by simp [hc])
  rw [if_neg (by simpa [List.isEmpty_iff] using hdfs)]
  rw [if_neg (by simpa [List.isEmpty_iff] using hflat)]
  rw [if_neg (by simpa [List.isEmpty_iff] using hex)]
  exact nodup_dedup_keep_first _

/-- C8: for a missing root, a full pass short-circuits without visiting any
source: the four category Datasets and the derived IBI series are all
empty, the persisted state is untouched, and exactly one progress event
(the root-missing report) is emitted. -/
theorem c8_root_missing (p : String → Option Int) (st : CacheState)
    (root : String) (srcs : List Source) :
    (process_all p st false root srcs).heart_rate = []
    ∧ (process_all p st false root srcs).steps = []
    ∧ (process_all p st false root srcs).sleep = []
    ∧ (process_all p st false root srcs).daily = []
    ∧ (process_all p st false root srcs).ibi = []
    ∧ (process_all p st false root srcs).state = st
    ∧ (process_all p st false root srcs).trace = [(root, Msg.root_missing)]
    ∧ (process_all p st false root srcs).trace.length = 1 :=
  ⟨rfl, rfl, rfl, rfl, rfl, rfl, rfl, rfl⟩

theorem foldl_latest_le (pat : String → Bool) (files : List (String × Int)) :
    ∀ a x : Int,
      files.foldl (fun acc f => if pat f.1 then max acc f.2 else acc) a ≤ x
        ↔ a ≤ x ∧ ∀ q ∈ files, pat q.1 = true → q.2 ≤ x := by
  induction files with
  | nil => intro a x; simp
  | cons f rest ih =>
      intro a x
      rw [List.foldl_cons]
      by_cases hf : pat f.1 = true
      · rw [if_pos hf, ih]
        constructor
        · rintro ⟨hmax, hrest⟩
          rw [max_le_iff] at hmax
          refine ⟨hmax.1, fun q hq hpq => ?_⟩
          rcases List.mem_cons.mp hq with rfl | hq'
          · exact hmax.2
          · exact hrest q hq' hpq
        · rintro ⟨ha, hall⟩
          exact ⟨max_le ha (hall f (List.mem_cons_self _ _) hf),
            fun q hq hpq => hall q (List.mem_cons_of_mem _ hq) hpq⟩
      · rw [if_neg hf, ih]
        constructor
        · rintro ⟨ha, hrest⟩
          refine ⟨ha, fun q hq hpq => ?_⟩
          rcases List.mem_cons.mp hq with rfl | hq'
          · exact absurd hpq hf
          · exact hrest q hq' hpq
        · rintro ⟨ha, hall⟩
          exact ⟨ha, fun q hq hpq => hall q (List.mem_cons_of_mem _ hq) hpq⟩

/-- C5 counterexample: an existing but empty (size 0) cache artifact whose
modified instant beats every source is reported fresh by the code, while
the claim's freshness predicate (which also requires the artifact to be
non-empty) rejects it. -/
theorem c5_counterexample :
    get_cache_status_fresh ⟨true, 0, 5⟩
        (fun n => matches_stem_suffix "heart_rate-" ".json" n) [] = true
    ∧ fresh_spec ⟨true, 0, 5⟩
        (fun n => matches_stem_suffix "heart_rate-" ".json" n) [] = false := by
  decide

/-- C5 amended: the freshness check reports a category's cache fresh iff
the cache artifact exists and its modified instant is at least 0 and at
least the modified instant of every currently matching source (the
emptiness of the artifact is not consulted); the check is a pure function
of the probed state. -/
theorem c5_freshness (c : CacheArtifact) (pat : String → Bool)
    (files : List (String × Int)) :
    get_cache_status_fresh c pat files = true ↔
      (c.present = true ∧ 0 ≤ c.mtime
        ∧ ∀ q ∈ files, pat q.1 = true → q.2 ≤ c.mtime) := by
  unfold get_cache_status_fresh latest_source_mtime
  rw [Bool.and_eq_true, decide_eq_true_eq, foldl_latest_le]

/-- C6 counterexample: a heart-rate record with the negative bpm -60 is not
excluded from the derived IBI series (the claim requires every non-positive
bpm to be excluded); the code only drops bpm 0 and missing bpm, so this
record contributes the entry -1000 ms. -/
theorem c6_counterexample :
    derive_ibi [((0 : Int), some ((-60 : ℚ)), (none : Option ℚ))] = [(0, -1000)] := by
  have h60 : ((-60 : ℚ) = 0) = False := by norm_num
  have hdiv : (60000 : ℚ) / (-60 : ℚ) = -1000 := by norm_num
  simp [derive_ibi, h60, hdiv]

/-- C6 amended: the derived IBI series is a pure function of the merged
heart-rate Dataset containing exactly one entry 60000 / bpm for every
record whose bpm is present and nonzero (in particular every record with
positive bpm); records with missing or zero bpm are excluded, but a
negative bpm is kept (with a negative interval). -/
theorem c6_ibi (hr : List HRK) (pr : Int × ℚ) :
    pr ∈ derive_ibi hr ↔
      ∃ t : Int, ∃ q : ℚ, ∃ c : Option ℚ,
        (t, some q, c) ∈ hr ∧ q ≠ 0 ∧ pr = (t, 60000 / q) := by
  unfold derive_ibi
  rw [List.mem_filterMap]
  constructor
  · rintro ⟨r, hm, hf⟩
    obtain ⟨t, b, c⟩ := r
    cases b with
    | none => simp at hf
    | some q =>
        by_cases hq : q = 0
        · rw [show (match (((t, some q, c) : HRK)).2.1 with
              | none => none
              | some q => if q = 0 then none else some ((t, some q, c).1, 60000 / q))
              = (if q = 0 then none else some (t, 60000 / q)) from rfl] at hf
          rw [if_pos hq] at hf
          exact absurd hf (by simp)
        · rw [show (match (((t, some q, c) : HRK)).2.1 with
              | none => none
              | some q => if q = 0 then none else some ((t, some q, c).1, 60000 / q))
              = (if q = 0 then none else some (t, 60000 / q)) from rfl] at hf
          rw [if_neg hq] at hf
          refine ⟨t, q, c, hm, hq, ?_⟩
          exact (Option.some_injective _ hf).symm
  · rintro ⟨t, q, c, hm, hq, rfl⟩
    exact ⟨(t, some q, c), hm, by simp [hq]⟩

/-- C10: a flat heart-rate entry (its value field is not a nested object)
with an explicit bpm of 0 does not keep that 0: because of the falsy-or
chaining, the parsed bpm is the entry's numeric value field when present
and missing otherwise. -/
theorem c10_flat_bpm_zero (base : Option String) (v : Entry)
    (hz : v.bpm = some 0) :
    (∀ q : ℚ, v.value = some (JVal.num q) → (parse_heart_entry base v).bpm = some q)
    ∧ (v.value = none → (parse_heart_entry base v).bpm = none) := by
  constructor
  · intro q hv
    unfold parse_heart_entry
    rw [hv]
    simp [pyOrNum, hz]
  · intro hv
    unfold parse_heart_entry
    rw [hv]
    simp [pyOrNum, hz]

/-- C10 witness: the entry with bpm 0 and numeric value 70 parses to bpm 70. -/
theorem c10_flat_bpm_zero_witness :
    c10_entry.bpm = some 0 ∧ (parse_heart_entry none c10_entry).bpm = some 70 :=
  ⟨rfl, (c10_flat_bpm_zero none c10_entry rfl).1 70 rfl⟩

/-- C2 counterexample: a source whose identifier is absent from the ledger
but whose modified instant is 0 is skipped (with a 'skipped' event), because
the code reads the missing ledger entry as 0 and compares with ≤; the claim
says an absent identifier is always reparsed. -/
theorem c2_counterexample :
    ledger_get empty_acc.ledger c2_zero_src.path = none
    ∧ (step_source empty_acc c2_zero_src).trace
        = [("heart_rate-a.json", Msg.skipped)]
    ∧ (step_source empty_acc c2_zero_src).new_hr_rows = [] := by
  decide

/-- C2 amended: a source is dispatched (and its records contributed) only
if its current modified instant strictly exceeds the ledger's recorded
instant for its identifier, an absent identifier being read as instant 0;
otherwise the pass leaves the buffers and the ledger untouched, appends
exactly one 'skipped' event for it, and a dispatched source never ends its
step on a 'skipped' event. -/
theorem c2_skip_rule (acc : PassAcc) (src : Source) :
    (src.mtime ≤ (ledger_get acc.ledger src.path).getD 0 →
      step_source acc src
        = { acc with trace := acc.trace ++ [(src.path, Msg.skipped)] })
    ∧ ((ledger_get acc.ledger src.path).getD 0 < src.mtime →
      ∀ lbl : String,
        (step_source acc src).trace.getLast? ≠ some (lbl, Msg.skipped)) := by
  constructor
  · exact step_source_skip_eq acc src
  · intro hlt lbl
    obtain ⟨p, m, rd, mem⟩ := src
    unfold step_source
    rw [if_neg (not_le.mpr hlt)]
    split_ifs with hz
    · cases mem with
      | none => rw [last_of_append_single]; simp
      | some ms =>
          simp only
          split_ifs
          · simp only
            rw [last_of_append_single]
            simp
          · simp only
            rw [last_of_append_single]
            simp
    · cases rd with
      | none => rw [last_of_append_single]; simp
      | some c =>
          simp only
          split_ifs
          · rw [last_of_append_single]; simp
          · simp only
            rw [last_of_append_single]
            simp

/-- C2 witness: a source recorded at instant 5 and seen again at instant 3
is skipped, leaving everything but the trace unchanged. -/
theorem c2_skip_rule_witness :
    c2_src.mtime ≤ (ledger_get c2_acc.ledger c2_src.path).getD 0
    ∧ step_source c2_acc c2_src
        = { c2_acc with trace := c2_acc.trace ++ [(c2_src.path, Msg.skipped)] } :=
  ⟨by decide, (c2_skip_rule c2_acc c2_src).1 (by decide)⟩

/-- C4 counterexample: two visited, non-skipped sources that are never
recorded into the ledger, contradicting the claim that every visited
non-skipped source is recorded regardless of match outcome or readability:
a plain file whose byte read raises (`continue` on read_error before the
mark), and a readable steps file whose content is a valid-JSON scalar —
its parse raises past `json.loads`, the per-source handler reports
'error', and the mark at line 591 never runs. -/
theorem c4_counterexample :
    ((ledger_get empty_acc.ledger c4_bad_src.path).getD 0 < c4_bad_src.mtime
      ∧ (step_source empty_acc c4_bad_src).trace
          = [("heart_rate-b.json", Msg.read_error)]
      ∧ ledger_get (step_source empty_acc c4_bad_src).ledger c4_bad_src.path
          = none)
    ∧ ((ledger_get empty_acc.ledger c4_scalar_src.path).getD 0 < c4_scalar_src.mtime
      ∧ c4_scalar_src.read.isSome = true
      ∧ (step_source empty_acc c4_scalar_src).trace
          = [("steps-2023-01-03.json", Msg.error)]
      ∧ ledger_get (step_source empty_acc c4_scalar_src).ledger c4_scalar_src.path
          = none) := by
  decide

/-- C4 amended: for every visited non-skipped source whose dispatch
completes without an exception — a plain file whose bytes could be read
and whose selected parser does not raise, or an archive that opens none of
whose readable members' parsers raise — the source's identifier and
current modified instant are recorded into the ledger and persisted
immediately after its dispatch, regardless of whether it matched any
category, and its step ends on the 'processed' event; sources hitting
read_error, zip_error (archive unopenable or a member's parse raised) or
the per-source error handler (a plain file's parse raised) are not
recorded. -/
theorem c4_ledger_write (acc : PassAcc) (src : Source)
    (h : (ledger_get acc.ledger src.path).getD 0 < src.mtime)
    (hg : good_source src) :
    ledger_get (step_source acc src).ledger src.path = some src.mtime
    ∧ (step_source acc src).trace.getLast? = some (src.path, Msg.processed) :=
  step_source_mark acc src (not_le.mpr h) hg

/-- C4 witness: a cleanly-dispatching heart-rate file at instant 7 is
recorded at instant 7. -/
theorem c4_ledger_write_witness :
    (ledger_get empty_acc.ledger c4_good_src.path).getD 0 < c4_good_src.mtime
    ∧ ledger_get (step_source empty_acc c4_good_src).ledger c4_good_src.path
        = some c4_good_src.mtime :=
  ⟨by decide, (c4_ledger_write empty_acc c4_good_src (by decide) (by decide)).1⟩

theorem matchDateAt_self {l m : List Char} (h : matchDateAt l = some m) :
    matchDateAt m = some m := by
  unfold matchDateAt at h
  split at h
  · rename_i a b c d e f rest
    split_ifs at h with hcond
    · have hm := (Option.some_injective _ h)
      subst hm
      show (if (isDigitCh a && isDigitCh b && isDigitCh c && isDigitCh d
          && isDigitCh e && isDigitCh f) = true then
        some ['2', '0', a, b, '-', c, d, '-', e, f] else none)
        = some ['2', '0', a, b, '-', c, d, '-', e, f]
      rw [if_pos hcond]
  · exact absurd h (by simp)

theorem findDate_shape {l m : List Char} (h : findDate l = some m) :
    matchDateAt m = some m := by
  induction l with
  | nil => simp [findDate] at h
  | cons c rest ih =>
      unfold findDate at h
      cases hm : matchDateAt (c :: rest) with
      | some m2 =>
          rw [hm] at h
          have := Option.some_injective _ h
          subst this
          exact matchDateAt_self hm
      | none =>
          rw [hm] at h
          exact ih h

theorem extract_date_shape {label b : String}
    (h : extract_date_from_filename label = some b) :
    date_shape b = true ∧ b ≠ "" := by
  unfold extract_date_from_filename at h
  cases hf : findDate (basenameChars label.data) with
  | none => rw [hf] at h; exact absurd h (by simp)
  | some m =>
      rw [hf] at h
      have hb : String.mk m = b := Option.some_injective _ (by simpa using h)
      have hshape := findDate_shape hf
      constructor
      · unfold date_shape
        rw [← hb]
        simp [hshape]
      · intro hegal
        rw [hegal] at hb
        have hm : m = [] := congrArg String.data hb
        rw [hm] at hshape
        exact absurd hshape (by simp [matchDateAt])

/-- C7 counterexample: a time-of-day heart-rate record in a source named
with the ISO-shaped date 1999-06-01 is not recovered: the code's regex
demands a year beginning with "20", so the timestamp stays "14:03:00"
instead of the claim's "1999-06-01T14:03:00". -/
theorem c7_counterexample :
    ((parse_heart_from_bytes "heart_rate-1999-06-01.json"
        (.entryList [c7_entry])).map HRRow.dateTime) = [some "14:03:00"]
    ∧ hasSub "heart_rate-1999-06-01.json".data "1999-06-01".data = true
    ∧ (some "14:03:00" : Option String) ≠ some "1999-06-01T14:03:00" := by
  decide

/-- C7 amended: for every heart-rate or step-count entry whose resolved
timestamp string is non-empty with length at most 8, and whose source
filename contains a substring matching `20\d{2}-\d{2}-\d{2}` (the leftmost
such match is taken — years must begin with "20", not arbitrary
ISO-date-shaped strings), the record's full timestamp is that recovered
date, a literal 'T', and the original time string. -/
theorem c7_recovery (label : String) (v : Entry) (b s : String)
    (hb : extract_date_from_filename label = some b)
    (hs : pyOrStr v.dateTime v.time = some s)
    (hs0 : s ≠ "") (hs8 : s.length ≤ 8) :
    (parse_heart_entry (extract_date_from_filename label) v).dateTime
        = some (b ++ "T" ++ s)
    ∧ (parse_steps_entry (extract_date_from_filename label) v).dateTime
        = some (b ++ "T" ++ s)
    ∧ date_shape b = true := by
  obtain ⟨hshape, hbne⟩ := extract_date_shape hb
  have hrec : recover_timestamp (extract_date_from_filename label)
      (pyOrStr v.dateTime v.time) = some (b ++ "T" ++ s) := by
    rw [hb, hs]
    show (if s ≠ "" ∧ s.length ≤ 8 ∧ b ≠ "" then some (b ++ "T" ++ s) else some s)
      = some (b ++ "T" ++ s)
    rw [if_pos ⟨hs0, hs8, hbne⟩]
  refine ⟨?_, ?_, hshape⟩
  · unfold parse_heart_entry
    cases hv : v.value with
    | none => simpa using hrec
    | some j => cases j <;> simpa using hrec
  · unfold parse_steps_entry
    simpa using hrec

/-- C7 witness: the spec's own example — "14:03:00" inside
heart_rate-2023-06-01.json resolves to 2023-06-01T14:03:00. -/
theorem c7_recovery_witness :
    extract_date_from_filename "heart_rate-2023-06-01.json" = some "2023-06-01"
    ∧ (parse_heart_entry
        (extract_date_from_filename "heart_rate-2023-06-01.json") c7_entry).dateTime
        = some "2023-06-01T14:03:00" :=
  ⟨by decide,
    (c7_recovery "heart_rate-2023-06-01.json" c7_entry "2023-06-01" "14:03:00"
      (by decide) (by decide) (by decide) (by decide)).1⟩

/-- C9 counterexample: a CSV source named sleep_score.csv — whose name does
not contain "daily" — still contributes its rows to the daily-summary
Dataset of a full pass, because the dispatch also accepts names containing
"sleep"; the claim says such a CSV contributes to no category. -/
theorem c9_counterexample :
    (process_all (parse_table []) empty_state true "r" [c9_src]).daily
        = [[("score", 80)]]
    ∧ hasSub (lowerList "sleep_score.csv".data) "daily".data = false := by
  decide

/-- C9 amended: a CSV source (loose file or archive member) contributes its
rows to the daily-summary category iff its lowercased filename ends in
".csv" and contains "daily" or "sleep"; a CSV whose name contains neither
substring is dispatched to no category and contributes nothing. -/
theorem c9_daily_dispatch (label name : String) (content : FileData)
    (acc : PassAcc) :
    ((dispatch_content label name content acc).new_daily_dfs
        ≠ acc.new_daily_dfs → csv_daily_match name = true)
    ∧ (∀ rows : List DailyRow, content = FileData.csvDoc (some rows) →
        matches_stem_suffix "heart_rate-" ".json" name = false →
        matches_stem_suffix "steps-" ".json" name = false →
        matches_stem_suffix "sleep-" ".json" name = false →
        ((csv_daily_match name = true →
            (dispatch_content label name content acc).new_daily_dfs
              = acc.new_daily_dfs ++ [rows])
          ∧ (csv_daily_match name = false →
            dispatch_content label name content acc = acc))) := by
  constructor
  · intro hne
    unfold dispatch_content at hne
    by_cases h1 : matches_stem_suffix "heart_rate-" ".json" name = true
    · rw [if_pos h1] at hne; exact absurd rfl hne
    · rw [if_neg h1] at hne
      by_cases h2 : matches_stem_suffix "steps-" ".json" name = true
      · rw [if_pos h2] at hne; exact absurd rfl hne
      · rw [if_neg h2] at hne
        by_cases h3 : matches_stem_suffix "sleep-" ".json" name = true
        · rw [if_pos h3] at hne; exact absurd rfl hne
        · rw [if_neg h3] at hne
          by_cases h4 : csv_daily_match name = true
          · exact h4
          · rw [if_neg h4] at hne; exact absurd rfl hne
  · rintro rows rfl h1 h2 h3
    constructor
    · intro h4
      unfold dispatch_content
      rw [if_neg (by simp [h1]), if_neg (by simp [h2]), if_neg (by simp [h3]),
        if_pos h4]
    · intro h4
      unfold dispatch_content
      rw [if_neg (by simp [h1]), if_neg (by simp [h2]), if_neg (by simp [h3]),
        if_neg (by simp [h4])]

/-- C9 witness: a readable CSV named x_daily.csv is appended to the daily
buffer. -/
theorem c9_daily_dispatch_witness :
    csv_daily_match "x_daily.csv" = true
    ∧ (dispatch_content "x_daily.csv" "x_daily.csv"
        (FileData.csvDoc (some c9_rows)) empty_acc).new_daily_dfs
        = empty_acc.new_daily_dfs ++ [c9_rows] :=
  ⟨by decide,
    ((c9_daily_dispatch "x_daily.csv" "x_daily.csv"
        (FileData.csvDoc (some c9_rows)) empty_acc).2 c9_rows rfl
      (by decide) (by decide) (by decide)).1 (by decide)⟩

/-- C1 counterexample: one pass over a heart-rate source holding two
records with the same instant returns (and persists) a heart-rate Dataset
with a duplicate instant — the merge sorts but never deduplicates, so the
claim's "no duplicate instant" fails. -/
theorem c1_counterexample :
    ((process_all c1_parse empty_state true "root" [c1_src]).heart_rate.map
        Prod.fst) = [100, 100]
    ∧ ¬ ((process_all c1_parse empty_state true "root" [c1_src]).heart_rate.map
        Prod.fst).Nodup := by
  decide

/-- C1 amended: after a full pass, heart-rate and step-count Datasets are
keyed by instant and sorted ascending, but duplicate instants may remain
(no per-instant deduplication); the sleep Dataset is sorted by start and is
deduplicated as whole tuples only when new sessions are merged into a
non-empty existing sleep cache; the daily Dataset is deduplicated as whole
rows only when new rows are merged into a non-empty existing daily cache;
the persisted caches equal the returned Datasets. (Sortedness of a
category whose pass contributed nothing new is inherited from its existing
cache, hence the sortedness hypotheses.) -/
theorem c1_dataset_invariants (p : String → Option Int) (st : CacheState)
    (root : String) (srcs : List Source)
    (h1 : st.heart_cache.Sorted keyLe)
    (h2 : st.steps_cache.Sorted keyLe)
    (h3 : st.sleep_cache.Sorted keyLe) :
    ((process_all p st true root srcs).heart_rate.Sorted keyLe)
    ∧ ((process_all p st true root srcs).steps.Sorted keyLe)
    ∧ ((process_all p st true root srcs).sleep.Sorted keyLe)
    ∧ ((srcs.foldl step_source ⟨st.ledger, [], [], [], [], []⟩).new_sleep_sessions
          ≠ [] → st.sleep_cache ≠ [] →
        (process_all p st true root srcs).sleep.Nodup)
    ∧ ((srcs.foldl step_source ⟨st.ledger, [], [], [], [], []⟩).new_daily_dfs.flatten
          ≠ [] → st.daily_cache ≠ [] →
        (process_all p st true root srcs).daily.Nodup)
    ∧ (process_all p st true root srcs).state.heart_cache
        = (process_all p st true root srcs).heart_rate
    ∧ (process_all p st true root srcs).state.steps_cache
        = (process_all p st true root srcs).steps
    ∧ (process_all p st true root srcs).state.sleep_cache
        = (process_all p st true root srcs).sleep
    ∧ (process_all p st true root srcs).state.daily_cache
        = (process_all p st true root srcs).daily := by
  refine ⟨merge_heart_sorted p st.heart_cache _ h1,
    merge_steps_sorted p st.steps_cache _ h2,
    merge_sleep_sorted p st.sleep_cache _ h3,
    fun hne hex => merge_sleep_nodup p st.sleep_cache _ hne hex,
    fun hne hex => merge_daily_nodup st.daily_cache _ hne hex,
    rfl, rfl, rfl, rfl⟩

/-- C1 witness: over an empty cache state the returned heart-rate Dataset
of a pass is sorted. -/
theorem c1_dataset_invariants_witness :
    List.Sorted keyLe empty_state.heart_cache
    ∧ ((process_all (parse_table []) empty_state true "r" []).heart_rate.Sorted
        keyLe) :=
  ⟨by simp [empty_state],
    (c1_dataset_invariants (parse_table []) empty_state "r" []
      (by simp [empty_state]) (by simp [empty_state]) (by simp [empty_state])).1⟩

/-- C3 counterexample: two roots over which — with nothing added, removed,
or modified between runs — the second pass's trace does not mark the
source skipped, contradicting the claim: an unreadable heart-rate file
re-reports read_error, and a readable steps file holding a valid-JSON
scalar makes its parse raise, is never ledger-marked, and re-reports the
per-source 'error' event on the second pass too. -/
theorem c3_counterexample :
    ((process_all (parse_table [])
        (process_all (parse_table []) empty_state true "r" [c4_bad_src]).state
        true "r" [c4_bad_src]).trace
      = [("heart_rate-b.json", Msg.read_error)]
    ∧ (process_all (parse_table [])
        (process_all (parse_table []) empty_state true "r" [c4_bad_src]).state
        true "r" [c4_bad_src]).trace
      ≠ [c4_bad_src].map (fun s => (s.path, Msg.skipped)))
    ∧ ((process_all (parse_table [])
        (process_all (parse_table []) empty_state true "r" [c4_scalar_src]).state
        true "r" [c4_scalar_src]).trace
      = [("steps-2023-01-03.json", Msg.error)]
    ∧ (process_all (parse_table [])
        (process_all (parse_table []) empty_state true "r" [c4_scalar_src]).state
        true "r" [c4_scalar_src]).trace
      ≠ [c4_scalar_src].map (fun s => (s.path, Msg.skipped))) := by
  decide

/-- C3 amended: running a full pass twice over the same root with no
source added, removed, or modified in between — provided every source's
first-pass dispatch completes cleanly (its bytes read, archives open, and
no selected parser raises on its content), so that the first pass records
every source in the ledger — yields after the second run exactly the first
run's Datasets and derived IBI series, and the second run's trace marks
every source as skipped. A source whose dispatch fails (read_error,
zip_error, or a parser exception caught by the per-source handler) is
never ledger-marked, so the second run re-attempts it and re-reports its
error instead of 'skipped'; a partially crashing archive even
re-contributes the rows of the members before the crash. -/
theorem c3_idempotent (p : String → Option Int) (st : CacheState)
    (root : String) (srcs : List Source)
    (hnd : (srcs.map Source.path).Nodup)
    (hgood : ∀ s ∈ srcs, good_source s) :
    (process_all p (process_all p st true root srcs).state true root srcs).heart_rate
        = (process_all p st true root srcs).heart_rate
    ∧ (process_all p (process_all p st true root srcs).state true root srcs).steps
        = (process_all p st true root srcs).steps
    ∧ (process_all p (process_all p st true root srcs).state true root srcs).sleep
        = (process_all p st true root srcs).sleep
    ∧ (process_all p (process_all p st true root srcs).state true root srcs).daily
        = (process_all p st true root srcs).daily
    ∧ (process_all p (process_all p st true root srcs).state true root srcs).ibi
        = (process_all p st true root srcs).ibi
    ∧ (process_all p (process_all p st true root srcs).state true root srcs).trace
        = srcs.map (fun s => (s.path, Msg.skipped)) := by
  have hcover := pass_ledger_covers srcs
    (⟨st.ledger, [], [], [], [], []⟩ : PassAcc) hnd hgood
  have hfold := all_skip_fold srcs
    (⟨(srcs.foldl step_source ⟨st.ledger, [], [], [], [], []⟩).ledger,
      [], [], [], [], []⟩ : PassAcc)
    (fun s hs => hcover s hs)
  refine ⟨?_, ?_, ?_, ?_, ?_, ?_⟩
  · show merge_heart p
        (merge_heart p st.heart_cache
          ((srcs.foldl step_source ⟨st.ledger, [], [], [], [], []⟩).new_hr_rows))
        ((srcs.foldl step_source
          ⟨(srcs.foldl step_source ⟨st.ledger, [], [], [], [], []⟩).ledger,
            [], [], [], [], []⟩).new_hr_rows)
      = merge_heart p st.heart_cache
          ((srcs.foldl step_source ⟨st.ledger, [], [], [], [], []⟩).new_hr_rows)
    rw [hfold]
    exact merge_heart_nil p _
  · show merge_steps p
        (merge_steps p st.steps_cache
          ((srcs.foldl step_source ⟨st.ledger, [], [], [], [], []⟩).new_steps_rows))
        ((srcs.foldl step_source
          ⟨(srcs.foldl step_source ⟨st.ledger, [], [], [], [], []⟩).ledger,
            [], [], [], [], []⟩).new_steps_rows)
      = merge_steps p st.steps_cache
          ((srcs.foldl step_source ⟨st.ledger, [], [], [], [], []⟩).new_steps_rows)
    rw [hfold]
    exact merge_steps_nil p _
  · show merge_sleep p
        (merge_sleep p st.sleep_cache
          ((srcs.foldl step_source ⟨st.ledger, [], [], [], [], []⟩).new_sleep_sessions))
        ((srcs.foldl step_source
          ⟨(srcs.foldl step_source ⟨st.ledger, [], [], [], [], []⟩).ledger,
            [], [], [], [], []⟩).new_sleep_sessions)
      = merge_sleep p st.sleep_cache
          ((srcs.foldl step_source ⟨st.ledger, [], [], [], [], []⟩).new_sleep_sessions)
    rw [hfold]
    exact merge_sleep_nil p _
  · show merge_daily
        (merge_daily st.daily_cache
          ((srcs.foldl step_source ⟨st.ledger, [], [], [], [], []⟩).new_daily_dfs))
        ((srcs.foldl step_source
          ⟨(srcs.foldl step_source ⟨st.ledger, [], [], [], [], []⟩).ledger,
            [], [], [], [], []⟩).new_daily_dfs)
      = merge_daily st.daily_cache
          ((srcs.foldl step_source ⟨st.ledger, [], [], [], [], []⟩).new_daily_dfs)
    rw [hfold]
    exact merge_daily_nil _
  · show derive_ibi (merge_heart p
        (merge_heart p st.heart_cache
          ((srcs.foldl step_source ⟨st.ledger, [], [], [], [], []⟩).new_hr_rows))
        ((srcs.foldl step_source
          ⟨(srcs.foldl step_source ⟨st.ledger, [], [], [], [], []⟩).ledger,
            [], [], [], [], []⟩).new_hr_rows))
      = derive_ibi (merge_heart p st.heart_cache
          ((srcs.foldl step_source ⟨st.ledger, [], [], [], [], []⟩).new_hr_rows))
    rw [hfold]
    exact congrArg derive_ibi (merge_heart_nil p _)
  · show ((srcs.foldl step_source
        ⟨(srcs.foldl step_source ⟨st.ledger, [], [], [], [], []⟩).ledger,
          [], [], [], [], []⟩).trace)
      = srcs.map (fun s => (s.path, Msg.skipped))
    rw [hfold]
    simp

/-- C3 witness: one cleanly-dispatching heart-rate source; the second
pass's trace marks it skipped. -/
theorem c3_idempotent_witness :
    ([c3_src].map Source.path).Nodup
    ∧ (∀ s ∈ [c3_src], good_source s)
    ∧ (process_all c3_parse
        (process_all c3_parse empty_state true "r" [c3_src]).state
        true "r" [c3_src]).trace
      = [c3_src].map (fun s => (s.path, Msg.skipped)) :=
  ⟨by decide, by decide,
    (c3_idempotent c3_parse empty_state "r" [c3_src]
      (by decide) (by decide)).2.2.2.2.2⟩
